import Mathlib

/-!
A shallow embedding of the chunked-transcription pipeline of `whisper_gui.py`:
`format_time`, `save_recorded_audio`, `split_audio` and the `transcribe`
generator.  External collaborators (the whisper engine, the ffmpeg splitting
tool, the wall clock, the temporary directories) are passed in as explicit
parameters; the yields of the Python generator become a list of progress
events, and file writes become an explicit list of `(path, content)` pairs.
-/

/-- Truncation toward zero, the behaviour of Python `int()` on a number. -/
def pyTrunc (q : ℚ) : ℤ := if 0 ≤ q then ⌊q⌋ else -⌊-q⌋

/-- Zero-padding to two digits, as in the minute and second fields of
`datetime.timedelta.__str__`. -/
def pad2 (n : ℕ) : String := if n < 10 then "0" ++ toString n else toString n

/-- String form of Python `datetime.timedelta(seconds = n)`: the delta is
normalised to whole `days` plus a remainder `0 ≤ rem < 86400`, printed as
`H:MM:SS` with a `D day(s), ` prefix when `days ≠ 0`. -/
def timedeltaRepr (n : ℤ) : String :=
  let days := n.fdiv 86400
  let rem := (n.fmod 86400).toNat
  let h := rem / 3600
  let m := rem % 3600 / 60
  let s := rem % 60
  let hms := toString h ++ ":" ++ pad2 m ++ ":" ++ pad2 s
  if days = 0 then hms
  else if days = 1 ∨ days = -1 then toString days ++ " day, " ++ hms
  else toString days ++ " days, " ++ hms

/-- `format_time` from the source: `int(seconds)` then
`str(timedelta(seconds=seconds))`. -/
def format_time (seconds : ℚ) : String := timedeltaRepr (pyTrunc seconds)

/-- Outcome of `save_recorded_audio`: the message of the raised `ValueError`
when the sample array is absent or empty, otherwise the path of the temporary
WAV file written inside the fresh `tempfile.mkdtemp()` directory. -/
def save_recorded_audio (audio_np : Option (List ℤ)) (sr : ℕ) (temp_dir : String) :
    Except String String :=
  match audio_np with
  | none => .error "No audio data received from microphone."
  | some samples =>
      if samples.length = 0 then .error "No audio data received from microphone."
      else .ok (temp_dir ++ "/recorded.wav")

/-- Python `f.endswith(suffix)`: suffix test on the character sequence. -/
def endswith (f suffix : String) : Bool := suffix.data.isSuffixOf f.data

/-- The numeral of the `chunk_%03d.wav` pattern handed to ffmpeg: a counter
zero-padded to a minimum width of three digits. -/
def pad3 (k : ℕ) : String :=
  let s := toString k
  if s.length < 3 then String.mk (List.replicate (3 - s.length) '0') ++ s else s

/-- The file name ffmpeg gives the `k`-th produced chunk, following the
source's `chunk_pattern = "chunk_%03d.wav"`. -/
def chunk_filename (k : ℕ) : String := "chunk_" ++ pad3 k ++ ".wav"

/-- The audio-splitting collaborator's output, per its contract in the spec
and the source's `chunk_pattern`: a run that yields `n` chunks writes one file
per chronological chunk, the `k`-th named `chunk_filename k`, into the fresh
temporary directory. -/
def ffmpeg_output (n : ℕ) : List String := (List.range n).map chunk_filename

/-- Python string `<`: lexicographic comparison of the code-point sequences,
as `List.Lex` on the character lists (provably the same as `String.lt`). -/
def py_str_lt (a b : String) : Prop := List.Lex (· < ·) a.data b.data

/-- Python string `≤`, the total order `sorted` sorts by. -/
def py_str_le (a b : String) : Prop := py_str_lt a b ∨ a = b

instance : DecidableRel py_str_lt := fun a b =>
  inferInstanceAs (Decidable (List.Lex (· < ·) a.data b.data))

instance : DecidableRel py_str_le := fun a b =>
  inferInstanceAs (Decidable (py_str_lt a b ∨ a = b))

instance : IsTrans String py_str_le where
  trans a b c hab hbc := by
    rcases hab with hab | rfl
    · rcases hbc with hbc | rfl
      · exact Or.inl (IsTrans.trans a.data b.data c.data hab hbc)
      · exact Or.inl hab
    · exact hbc

instance : IsAntisymm String py_str_le where
  antisymm a b hab hba := by
    rcases hab with hab | rfl
    · rcases hba with hba | rfl
      · exact absurd hba (IsAsymm.asymm a.data b.data hab)
      · rfl
    · rfl

instance : IsTotal String py_str_le where
  total a b := by
    haveI : IsTrichotomous (List Char) (List.Lex (· < ·)) :=
      List.Lex.isTrichotomous (α := Char) (· < ·)
    rcases trichotomous_of (List.Lex (· < ·)) a.data b.data with h | h | h
    · exact Or.inl (Or.inl h)
    · refine Or.inl (Or.inr ?_)
      cases a; cases b; exact congrArg String.mk h
    · exact Or.inr (Or.inl h)

/-- `split_audio`: the ffmpeg invocation itself is external — `listing` is
what the fresh temporary directory holds after it ran, i.e. the files the
tool produced — then the `.wav` files are collected, joined to the directory
and sorted.  Python `sorted` is a comparison sort by `py_str_le`, modelled by
`List.insertionSort`. -/
def split_audio (file_path : String) (chunk_duration : ℚ) (tmp_dir : String)
    (listing : List String) : List String :=
  List.insertionSort py_str_le
    ((listing.filter (fun f => endswith f ".wav")).map (fun f => tmp_dir ++ "/" ++ f))

/-- An engine segment: `seg["start"]`, `seg["end"]`, `seg["text"]`. -/
structure Segment where
  start : ℚ
  stop : ℚ
  text : String
deriving DecidableEq

/-- One yielded tuple `(progress_status, current_transcript, path_or_None)`. -/
structure ProgressEvent where
  status : String
  preview : String
  artifact : Option String
deriving DecidableEq

/-- The `audio_input` argument: a `(sample_rate, np.ndarray)` tuple from the
microphone (array possibly absent) or a plain file path. -/
inductive AudioInput where
  | recorded (sr : ℕ) (samples : Option (List ℤ))
  | filePath (path : String)

/-- What a `transcribe` run leaves behind: the yielded events in order, and
the files written as `(path, content)` pairs. -/
structure RunResult where
  events : List ProgressEvent
  written : List (String × String)
deriving DecidableEq

/-- Splitting a character list at a separator; the resulting groups are the
components between consecutive separators (always at least one group). -/
def splitChar (sep : Char) : List Char → List (List Char)
  | [] => [[]]
  | c :: rest =>
      match splitChar sep rest with
      | [] => [[c]]
      | g :: gs => if c = sep then [] :: g :: gs else (c :: g) :: gs

/-- Python `pathlib.Path(p).stem`: the final path component without its last
suffix, where a suffix is a dot at position `i` with `0 < i < length - 1`
(so `"a/b.tar.gz"` has stem `"b.tar"` and a leading dot is kept). -/
def path_stem (p : String) : String :=
  let name := ((splitChar '/' p.data).filter (fun s => s ≠ [])).getLastD []
  match name.reverse.indexOf? '.' with
  | none => String.mk name
  | some rIdx =>
      let i := name.length - 1 - rIdx
      if 0 < i ∧ i < name.length - 1 then String.mk (name.take i) else String.mk name

/-- Python `str.strip()`: whitespace removed from both ends. -/
def py_strip (s : String) : String :=
  let cs := s.data.dropWhile (fun c => c.isWhitespace)
  String.mk (cs.reverse.dropWhile (fun c => c.isWhitespace)).reverse

/-- The input-normalisation step of `transcribe` (its `try` block): a
recorded pair goes through `save_recorded_audio` with derived name
`recorded_audio`; a file path passes through with its stem as name. -/
def normalize_input (audio_input : AudioInput) (rec_tmp_dir : String) :
    Except String (String × String) :=
  match audio_input with
  | .recorded sr samples =>
      (save_recorded_audio samples sr rec_tmp_dir).map (fun p => (p, "recorded_audio"))
  | .filePath p => .ok (p, path_stem p)

/-- `avg_time = elapsed / (i + 1)` from the loop body. -/
def avg_time (elapsed : ℚ) (i : ℕ) : ℚ := elapsed / (i + 1)

/-- `eta = avg_time * (total_chunks - i - 1)` from the loop body. -/
def eta (elapsed : ℚ) (i total_chunks : ℕ) : ℚ :=
  avg_time elapsed i * ((total_chunks : ℚ) - (i : ℚ) - 1)

/-- One display line `"[start - stop]: text"` for an engine segment, with
`format_time` timestamps and Python-`strip`ped text. -/
def seg_line (seg : Segment) : String :=
  "[" ++ format_time seg.start ++ " - " ++ format_time seg.stop ++ "]: " ++ py_strip seg.text

/-- The display lines a single chunk appends, in engine order. -/
def chunk_lines (segs : List Segment) : List String := segs.map seg_line

/-- Python `transcript_lines[-10:]`: the last ten elements, or all of them
when fewer than ten exist. -/
def last10 (xs : List String) : List String := xs.drop (xs.length - 10)

/-- The progress event yielded after chunk `i` (0-based) of `total_chunks`,
with `elapsed` seconds on the clock and `acc` the lines accumulated so far. -/
def chunk_event (total_chunks i : ℕ) (elapsed : ℚ) (acc : List String) : ProgressEvent :=
  { status := "🔄 Chunk " ++ toString (i + 1) ++ "/" ++ toString total_chunks ++
      " | ⏱ Elapsed: " ++ format_time elapsed ++ " | ETA: " ++
      format_time (eta elapsed i total_chunks)
    preview := String.intercalate "\n" (last10 acc)
    artifact := none }

/-- The per-chunk loop of `transcribe`: returns the final accumulated lines
and the yielded events.  `i` is the enumeration index, `acc` the lines so
far; `engine chunk` stands for `model.transcribe(chunk, ...)["segments"]` and
`clock j` for `time.time() - start_time` as measured in iteration `j`. -/
def run_chunks (engine : String → List Segment) (clock : ℕ → ℚ) (total_chunks : ℕ) :
    List String → ℕ → List String → List String × List ProgressEvent
  | [], _, acc => (acc, [])
  | chunk :: rest, i, acc =>
    let acc' := acc ++ chunk_lines (engine chunk)
    let ev := chunk_event total_chunks i (clock i) acc'
    let rec' := run_chunks engine clock total_chunks rest (i + 1) acc'
    (rec'.1, ev :: rec'.2)

/-- The chunk list of a run: `[audio_file]`, replaced by the `split_audio`
result when `chunk_duration > 0`. -/
def make_chunks (audio_file : String) (chunk_duration : ℚ) (split_tmp_dir : String)
    (listing : List String) : List String :=
  if chunk_duration > 0 then split_audio audio_file chunk_duration split_tmp_dir listing
  else [audio_file]

/-- The `transcribe` generator.  Oracles: `rec_tmp_dir` and `split_tmp_dir`
are the two `tempfile.mkdtemp()` results, `listing` is what ffmpeg left in
`split_tmp_dir`, `engine` the loaded model applied to a chunk path, and
`clock j` the elapsed wall-clock seconds at the `j`-th measurement (taken
inside iteration `j` for `j < n`, and once more after the loop at `j = n`). -/
def transcribe (audio_input : AudioInput) (chunk_duration : ℚ)
    (rec_tmp_dir split_tmp_dir : String) (listing : List String)
    (engine : String → List Segment) (clock : ℕ → ℚ) : RunResult :=
  match normalize_input audio_input rec_tmp_dir with
  | .error e => { events := [⟨"❌ Recording failed: " ++ e, "", none⟩], written := [] }
  | .ok (audio_file, file_name) =>
    let output_txt_path := "transcriptions/" ++ file_name ++ ".txt"
    let chunks := make_chunks audio_file chunk_duration split_tmp_dir listing
    let total_chunks := chunks.length
    let res := run_chunks engine clock total_chunks chunks 0 []
    let full_transcript := String.intercalate "\n" res.1
    { events := res.2 ++ [⟨"✅ Done in " ++ format_time (clock total_chunks),
        full_transcript, some output_txt_path⟩]
    , written := [(output_txt_path, full_transcript)] }

/-- All display lines a run over `chunks` accumulates, in chunk order. -/
def all_lines (engine : String → List Segment) (chunks : List String) : List String :=
  chunks.flatMap (fun c => chunk_lines (engine c))

/-- The display-line time format as the spec words it: `H:MM:SS` with
unpadded hours, from the floor of the time in seconds.  Stated from the spec
for comparison with the code's `format_time`. -/
def floor_hms (q : ℚ) : String :=
  let n := (⌊q⌋).toNat
  toString (n / 3600) ++ ":" ++ pad2 (n % 3600 / 60) ++ ":" ++ pad2 (n % 60)

/-- Closed form of the chunk loop: the final accumulator appends all lines in
chunk order, and the `j`-th event is the chunk event for index `i + j` over
the lines accumulated through chunk `j`. -/
theorem run_chunks_eq (engine : String → List Segment) (clock : ℕ → ℚ) (total : ℕ) :
    ∀ (chunks : List String) (i : ℕ) (acc : List String),
    run_chunks engine clock total chunks i acc =
      (acc ++ all_lines engine chunks,
       (List.range chunks.length).map (fun j =>
         chunk_event total (i + j) (clock (i + j))
           (acc ++ all_lines engine (chunks.take (j + 1)))))
  | [], i, acc => by simp [run_chunks, all_lines]
  | c :: rest, i, acc => by
      have ih := run_chunks_eq engine clock total rest (i + 1) (acc ++ chunk_lines (engine c))
      simp only [run_chunks, ih, List.length_cons, List.range_succ_eq_map, List.map_cons,
        List.map_map, all_lines, List.flatMap_cons, Prod.mk.injEq]
      refine ⟨by simp, ?_⟩
      simp only [Nat.add_zero, List.take_succ_cons, List.take_zero, List.flatMap_cons,
        List.flatMap_nil, List.append_nil, List.cons.injEq]
      refine ⟨trivial, ?_⟩
      apply List.map_congr_left
      intro j hj
      simp only [Function.comp]
      have h1 : i + (j + 1) = i + 1 + j := by omega
      simp [h1, List.append_assoc]

example : format_time 0 = "0:00:00" := by decide
example : format_time 3661 = "1:01:01" := by decide
example : format_time 90000 = "1 day, 1:00:00" := by decide
example : path_stem "dir/song.tar.gz" = "song.tar" := by decide
example : chunk_filename 7 = "chunk_007.wav" := by decide
example : chunk_filename 1000 = "chunk_1000.wav" := by decide

/-- Unfolding of a `transcribe` run whose normalization step succeeds: the
events are the mapped chunk events followed by the terminal success event,
and exactly one file is written, holding the joined transcript. -/
theorem transcribe_ok_eq (inp : AudioInput) (cd : ℚ) (rT sT : String)
    (listing : List String) (engine : String → List Segment) (clock : ℕ → ℚ)
    (af nm : String) (h : normalize_input inp rT = .ok (af, nm)) :
    transcribe inp cd rT sT listing engine clock =
      { events :=
          (List.range (make_chunks af cd sT listing).length).map (fun j =>
            chunk_event (make_chunks af cd sT listing).length j (clock j)
              (all_lines engine ((make_chunks af cd sT listing).take (j + 1)))) ++
          [⟨"✅ Done in " ++ format_time (clock (make_chunks af cd sT listing).length),
            String.intercalate "\n" (all_lines engine (make_chunks af cd sT listing)),
            some ("transcriptions/" ++ nm ++ ".txt")⟩]
      , written := [("transcriptions/" ++ nm ++ ".txt",
          String.intercalate "\n" (all_lines engine (make_chunks af cd sT listing)))] } := by
  unfold transcribe
  rw [h]
  simp only [run_chunks_eq, List.nil_append, Nat.zero_add]

/-- Claim C3: a `Recorded` input with an absent or empty sample sequence
makes the run emit exactly one terminal event — error status, empty preview,
absent artifact — with no chunk-processing events and no file written. -/
theorem claim3 (sr : ℕ) (samples : Option (List ℤ)) (cd : ℚ) (rT sT : String)
    (listing : List String) (engine : String → List Segment) (clock : ℕ → ℚ)
    (h : samples = none ∨ samples = some []) :
    transcribe (.recorded sr samples) cd rT sT listing engine clock =
      { events := [⟨"❌ Recording failed: No audio data received from microphone.", "", none⟩]
      , written := [] } := by
  rcases h with rfl | rfl <;> rfl

/-- Witness for C3 at a concrete absent-sample input. -/
theorem claim3_witness :
    ((none : Option (List ℤ)) = none ∨ (none : Option (List ℤ)) = some []) ∧
    transcribe (.recorded 16000 none) 120 "r" "s" [] (fun _ => []) (fun _ => 0) =
      { events := [⟨"❌ Recording failed: No audio data received from microphone.", "", none⟩]
      , written := [] } :=
  ⟨Or.inl rfl, claim3 16000 none 120 "r" "s" [] (fun _ => []) (fun _ => 0) (Or.inl rfl)⟩

/-- Claim C7: with `chunk_duration = 0` no segmentation happens and the chunk
list is exactly the resolved input path. -/
theorem claim7 (audio_file sT : String) (listing : List String) :
    make_chunks audio_file 0 sT listing = [audio_file] := by
  simp [make_chunks]

/-- Claim C10: a negative `chunk_duration` behaves exactly like `0` — the
chunk list is the input path alone and the whole run is unchanged. -/
theorem claim10 (inp : AudioInput) (audio_file rT sT : String) (listing : List String)
    (engine : String → List Segment) (clock : ℕ → ℚ) (cd : ℚ) (hcd : cd < 0) :
    make_chunks audio_file cd sT listing = [audio_file] ∧
    transcribe inp cd rT sT listing engine clock =
      transcribe inp 0 rT sT listing engine clock := by
  have h1 : ¬ cd > 0 := by linarith
  refine ⟨by simp [make_chunks, h1], ?_⟩
  unfold transcribe
  cases normalize_input inp rT with
  | error e => rfl
  | ok p => simp [make_chunks, h1]

/-- Witness for C10 at `chunk_duration = -1`. -/
theorem claim10_witness :
    ((-1 : ℚ) < 0) ∧
    (make_chunks "a.wav" (-1) "s" [] = ["a.wav"] ∧
     transcribe (.filePath "a.wav") (-1) "r" "s" [] (fun _ => []) (fun _ => 0) =
       transcribe (.filePath "a.wav") 0 "r" "s" [] (fun _ => []) (fun _ => 0)) :=
  ⟨by norm_num,
   claim10 (.filePath "a.wav") "a.wav" "r" "s" [] (fun _ => []) (fun _ => 0) (-1) (by norm_num)⟩

/-- Claim C4: after chunk `i` of `n` (with `i < n`, elapsed `e ≥ 0`) the
estimate is `avg_time = e / (i+1)` and `eta = avg_time * (n - i - 1)`; both
are non-negative and `eta` is `0` on the last chunk. -/
theorem claim4 (e : ℚ) (i n : ℕ) (hi : i < n) (he : 0 ≤ e) :
    avg_time e i = e / (i + 1) ∧
    eta e i n = avg_time e i * ((n : ℚ) - (i : ℚ) - 1) ∧
    0 ≤ avg_time e i ∧ 0 ≤ eta e i n ∧ (i = n - 1 → eta e i n = 0) := by
  have hpos : (0 : ℚ) < (i : ℚ) + 1 := by positivity
  have havg : 0 ≤ avg_time e i := div_nonneg he (le_of_lt hpos)
  refine ⟨rfl, rfl, havg, ?_, ?_⟩
  · apply mul_nonneg havg
    have hin : (i : ℚ) + 1 ≤ (n : ℚ) := by exact_mod_cast hi
    linarith
  · intro hlast
    have hn : n = i + 1 := by omega
    subst hn
    unfold eta
    push_cast
    ring

/-- Witness for C4 at `e = 3`, `i = 1`, `n = 2`. -/
theorem claim4_witness :
    ((1 < 2) ∧ (0 : ℚ) ≤ 3) ∧
    (avg_time 3 1 = 3 / (1 + 1) ∧
     eta 3 1 2 = avg_time 3 1 * ((2 : ℚ) - (1 : ℚ) - 1) ∧
     0 ≤ avg_time 3 1 ∧ 0 ≤ eta 3 1 2 ∧ (1 = 2 - 1 → eta 3 1 2 = 0)) :=
  ⟨⟨by decide, by norm_num⟩, claim4 3 1 2 (by decide) (by norm_num)⟩

/-- Claim C1: in a run whose normalization succeeds (so the terminal success
event is reached), the persisted file's content, the transcript text carried
by the terminal (= last) event, and the newline-join of all per-chunk display
lines in chunk order are all the same string. -/
theorem claim1 (inp : AudioInput) (cd : ℚ) (rT sT : String) (listing : List String)
    (engine : String → List Segment) (clock : ℕ → ℚ) (af nm : String)
    (h : normalize_input inp rT = .ok (af, nm)) :
    (transcribe inp cd rT sT listing engine clock).events.getLast? =
      some ⟨"✅ Done in " ++ format_time (clock (make_chunks af cd sT listing).length),
        String.intercalate "\n" (all_lines engine (make_chunks af cd sT listing)),
        some ("transcriptions/" ++ nm ++ ".txt")⟩ ∧
    (transcribe inp cd rT sT listing engine clock).written =
      [("transcriptions/" ++ nm ++ ".txt",
        String.intercalate "\n" (all_lines engine (make_chunks af cd sT listing)))] := by
  rw [transcribe_ok_eq inp cd rT sT listing engine clock af nm h]
  exact ⟨List.getLast?_concat _, rfl⟩

/-- Witness for C1: a one-chunk file run with one engine segment. -/
theorem claim1_witness :
    normalize_input (.filePath "music/song.mp3") "r" = .ok ("music/song.mp3", "song") ∧
    ((transcribe (.filePath "music/song.mp3") 0 "r" "s" []
        (fun _ => [⟨0, 2, " hello "⟩]) (fun _ => 7)).events.getLast? =
      some ⟨"✅ Done in " ++ format_time ((fun _ => (7 : ℚ))
          (make_chunks "music/song.mp3" 0 "s" []).length),
        String.intercalate "\n"
          (all_lines (fun _ => [⟨0, 2, " hello "⟩]) (make_chunks "music/song.mp3" 0 "s" [])),
        some ("transcriptions/" ++ "song" ++ ".txt")⟩ ∧
     (transcribe (.filePath "music/song.mp3") 0 "r" "s" []
        (fun _ => [⟨0, 2, " hello "⟩]) (fun _ => 7)).written =
      [("transcriptions/" ++ "song" ++ ".txt",
        String.intercalate "\n"
          (all_lines (fun _ => [⟨0, 2, " hello "⟩]) (make_chunks "music/song.mp3" 0 "s" [])))]) :=
  ⟨by rfl,
   claim1 (.filePath "music/song.mp3") 0 "r" "s" [] (fun _ => [⟨0, 2, " hello "⟩])
     (fun _ => 7) "music/song.mp3" "song" (by rfl)⟩

/-- Claim C2: when normalization succeeds (and every engine call, modelled as
a total function, succeeds), the run yields one event per chunk — all without
artifact — plus exactly one artifact-carrying terminal event, emitted last. -/
theorem claim2 (inp : AudioInput) (cd : ℚ) (rT sT : String) (listing : List String)
    (engine : String → List Segment) (clock : ℕ → ℚ) (af nm : String)
    (h : normalize_input inp rT = .ok (af, nm)) :
    (transcribe inp cd rT sT listing engine clock).events.length =
      (make_chunks af cd sT listing).length + 1 ∧
    (transcribe inp cd rT sT listing engine clock).events.countP
        (fun e => e.artifact.isNone) = (make_chunks af cd sT listing).length ∧
    (transcribe inp cd rT sT listing engine clock).events.countP
        (fun e => e.artifact.isSome) = 1 ∧
    ((transcribe inp cd rT sT listing engine clock).events.getLast?).map
        (fun e => e.artifact) = some (some ("transcriptions/" ++ nm ++ ".txt")) := by
  rw [transcribe_ok_eq inp cd rT sT listing engine clock af nm h]
  refine ⟨by simp, ?_, ?_, by rw [List.getLast?_concat]; rfl⟩
  · rw [List.countP_append, List.countP_map,
      List.countP_eq_length.mpr (fun a _ => by rfl), List.length_range]
    rfl
  · rw [List.countP_append, List.countP_map,
      List.countP_eq_zero.mpr (fun a _ => by simp [chunk_event])]
    rfl

/-- Witness for C2: a two-chunk run (duration 60, two produced files). -/
theorem claim2_witness :
    normalize_input (.filePath "a.mp3") "r" = .ok ("a.mp3", "a") ∧
    ((transcribe (.filePath "a.mp3") 60 "r" "s" ["chunk_000.wav", "chunk_001.wav"]
        (fun _ => []) (fun _ => 1)).events.length =
      (make_chunks "a.mp3" 60 "s" ["chunk_000.wav", "chunk_001.wav"]).length + 1 ∧
     (transcribe (.filePath "a.mp3") 60 "r" "s" ["chunk_000.wav", "chunk_001.wav"]
        (fun _ => []) (fun _ => 1)).events.countP (fun e => e.artifact.isNone) =
      (make_chunks "a.mp3" 60 "s" ["chunk_000.wav", "chunk_001.wav"]).length ∧
     (transcribe (.filePath "a.mp3") 60 "r" "s" ["chunk_000.wav", "chunk_001.wav"]
        (fun _ => []) (fun _ => 1)).events.countP (fun e => e.artifact.isSome) = 1 ∧
     ((transcribe (.filePath "a.mp3") 60 "r" "s" ["chunk_000.wav", "chunk_001.wav"]
        (fun _ => []) (fun _ => 1)).events.getLast?).map (fun e => e.artifact) =
      some (some ("transcriptions/" ++ "a" ++ ".txt"))) :=
  ⟨by rfl,
   claim2 (.filePath "a.mp3") 60 "r" "s" ["chunk_000.wav", "chunk_001.wav"]
     (fun _ => []) (fun _ => 1) "a.mp3" "a" (by rfl)⟩

/-- Claim C8: the event yielded after chunk `j` previews the last ten
accumulated lines (a suffix of the accumulated lines, of length
`min 10 total`, hence all of them when fewer than ten exist), joined with
newlines in order. -/
theorem claim8 (inp : AudioInput) (cd : ℚ) (rT sT : String) (listing : List String)
    (engine : String → List Segment) (clock : ℕ → ℚ) (af nm : String)
    (h : normalize_input inp rT = .ok (af, nm)) (j : ℕ)
    (hj : j < (make_chunks af cd sT listing).length) :
    ((transcribe inp cd rT sT listing engine clock).events[j]?).map (fun e => e.preview) =
      some (String.intercalate "\n"
        (last10 (all_lines engine ((make_chunks af cd sT listing).take (j + 1))))) ∧
    last10 (all_lines engine ((make_chunks af cd sT listing).take (j + 1))) <:+
      all_lines engine ((make_chunks af cd sT listing).take (j + 1)) ∧
    (last10 (all_lines engine ((make_chunks af cd sT listing).take (j + 1)))).length =
      min 10 (all_lines engine ((make_chunks af cd sT listing).take (j + 1))).length := by
  refine ⟨?_, List.drop_suffix _ _, by simp only [last10, List.length_drop]; omega⟩
  rw [transcribe_ok_eq inp cd rT sT listing engine clock af nm h]
  rw [List.getElem?_append_left (by simpa using hj), List.getElem?_map,
    List.getElem?_range hj]
  rfl

/-- Witness for C8: the first chunk of a one-chunk run with two segments. -/
theorem claim8_witness :
    (normalize_input (.filePath "b.mp3") "r" = .ok ("b.mp3", "b") ∧
     0 < (make_chunks "b.mp3" 0 "s" []).length) ∧
    (((transcribe (.filePath "b.mp3") 0 "r" "s" []
        (fun _ => [⟨0, 1, "x"⟩, ⟨1, 2, "y"⟩]) (fun _ => 3)).events[0]?).map
          (fun e => e.preview) =
      some (String.intercalate "\n"
        (last10 (all_lines (fun _ => [⟨0, 1, "x"⟩, ⟨1, 2, "y"⟩])
          ((make_chunks "b.mp3" 0 "s" []).take (0 + 1))))) ∧
     last10 (all_lines (fun _ => [⟨0, 1, "x"⟩, ⟨1, 2, "y"⟩])
        ((make_chunks "b.mp3" 0 "s" []).take (0 + 1))) <:+
      all_lines (fun _ => [⟨0, 1, "x"⟩, ⟨1, 2, "y"⟩])
        ((make_chunks "b.mp3" 0 "s" []).take (0 + 1)) ∧
     (last10 (all_lines (fun _ => [⟨0, 1, "x"⟩, ⟨1, 2, "y"⟩])
        ((make_chunks "b.mp3" 0 "s" []).take (0 + 1)))).length =
      min 10 (all_lines (fun _ => [⟨0, 1, "x"⟩, ⟨1, 2, "y"⟩])
        ((make_chunks "b.mp3" 0 "s" []).take (0 + 1))).length) :=
  ⟨⟨by rfl, by decide⟩,
   claim8 (.filePath "b.mp3") 0 "r" "s" [] (fun _ => [⟨0, 1, "x"⟩, ⟨1, 2, "y"⟩])
     (fun _ => 3) "b.mp3" "b" (by rfl) 0 (by decide)⟩

/-- Appending a common prefix on the left preserves strict Python order. -/
theorem py_str_lt_append_left (s a b : String) (h : py_str_lt a b) :
    py_str_lt (s ++ a) (s ++ b) := by
  unfold py_str_lt at h ⊢
  rw [String.data_append, String.data_append]
  induction s.data with
  | nil => simpa using h
  | cons c cs ih => exact List.Lex.cons ih

/-- Appending a common prefix on the left preserves Python order. -/
theorem py_str_le_append_left (s a b : String) (h : py_str_le a b) :
    py_str_le (s ++ a) (s ++ b) := by
  rcases h with h | rfl
  · exact Or.inl (py_str_lt_append_left s a b h)
  · exact Or.inr rfl

set_option maxRecDepth 8000 in
/-- Within the three-digit range of the counter, consecutive chunk file names
are strictly increasing in Python string order. -/
theorem chunk_filename_adj :
    ∀ k, k < 999 → py_str_lt (chunk_filename k) (chunk_filename (k + 1)) := by decide

/-- Every produced chunk file name ends in `.wav`. -/
theorem endswith_chunk (k : ℕ) : endswith (chunk_filename k) ".wav" = true := by
  simp only [endswith, chunk_filename, String.data_append, List.isSuffixOf_iff_suffix]
  exact List.suffix_append _ _

/-- The chronologically ordered, directory-joined chunk files of a run with
at most 1000 chunks are sorted in Python string order. -/
theorem sorted_ffmpeg_joined (tmp : String) (n : ℕ) (hn : n ≤ 1000) :
    List.Sorted py_str_le ((ffmpeg_output n).map (fun f => tmp ++ "/" ++ f)) := by
  unfold ffmpeg_output
  rw [List.map_map]
  apply List.chain'_iff_pairwise.mp
  rw [List.chain'_map]
  cases n with
  | zero => simp
  | succ m =>
      rw [List.chain'_range_succ]
      intro i hi
      apply py_str_le_append_left
      exact Or.inl (chunk_filename_adj i (by omega))

/-- Claim C5 (amended): for a segmentation run that produced at most 1000
chunk files, collecting them (in any directory-listing order), sorting
lexicographically and indexing 0..n-1 recovers the chunks' chronological
order. -/
theorem claim5 (fp : String) (cd : ℚ) (tmp : String) (n : ℕ) (hn : n ≤ 1000)
    (listing : List String) (hperm : listing.Perm (ffmpeg_output n)) :
    split_audio fp cd tmp listing = (ffmpeg_output n).map (fun f => tmp ++ "/" ++ f) := by
  unfold split_audio
  have hfil : listing.filter (fun f => endswith f ".wav") = listing := by
    rw [List.filter_eq_self]
    intro a ha
    have ham : a ∈ ffmpeg_output n := hperm.mem_iff.mp ha
    simp only [ffmpeg_output, List.mem_map] at ham
    obtain ⟨k, _, rfl⟩ := ham
    exact endswith_chunk k
  rw [hfil]
  refine List.eq_of_perm_of_sorted ?_ (List.sorted_insertionSort _ _)
    (sorted_ffmpeg_joined tmp n hn)
  exact (List.perm_insertionSort _ _).trans (hperm.map _)

/-- Counterexample to C5 as stated: with 1001 produced files the three-digit
counter wraps to a four-digit name, and the lexicographic sort no longer
returns the chronological order. -/
theorem claim5_counterexample :
    ¬ (split_audio "f" 60 "t" (ffmpeg_output 1001) =
        (ffmpeg_output 1001).map (fun f => "t" ++ "/" ++ f)) := by
  intro h
  have hs : List.Sorted py_str_le (split_audio "f" 60 "t" (ffmpeg_output 1001)) := by
    unfold split_audio
    exact List.sorted_insertionSort _ _
  rw [h] at hs
  have hp := hs.rel_get_of_lt
    (a := ⟨999, by simp [ffmpeg_output]⟩) (b := ⟨1000, by simp [ffmpeg_output]⟩)
    (Fin.mk_lt_mk.mpr (by omega))
  simp only [ffmpeg_output, List.get_eq_getElem, List.getElem_map, List.getElem_range] at hp
  exact absurd hp (by decide)

/-- Witness for C5 (amended) at a two-chunk run listed out of order. -/
theorem claim5_witness :
    (2 ≤ 1000 ∧ (["chunk_001.wav", "chunk_000.wav"] : List String).Perm (ffmpeg_output 2)) ∧
    split_audio "f" 60 "t" ["chunk_001.wav", "chunk_000.wav"] =
      (ffmpeg_output 2).map (fun f => "t" ++ "/" ++ f) :=
  ⟨⟨by decide, by decide⟩,
   claim5 "f" 60 "t" 2 (by decide) ["chunk_001.wav", "chunk_000.wav"] (by decide)⟩

/-- Claim C6 (amended): when normalization succeeds and either no
segmentation is requested (`chunk_duration ≤ 0`) or the splitting tool
produced at least one `.wav` file, the chunk list is non-empty and at least
one chunk-processing event precedes the terminal event. -/
theorem claim6 (inp : AudioInput) (cd : ℚ) (rT sT : String) (listing : List String)
    (engine : String → List Segment) (clock : ℕ → ℚ) (af nm : String)
    (h : normalize_input inp rT = .ok (af, nm))
    (hseg : cd ≤ 0 ∨ listing.filter (fun f => endswith f ".wav") ≠ []) :
    make_chunks af cd sT listing ≠ [] ∧
    2 ≤ (transcribe inp cd rT sT listing engine clock).events.length ∧
    ((transcribe inp cd rT sT listing engine clock).events.head?).map
      (fun e => e.artifact) = some none := by
  have hcn : make_chunks af cd sT listing ≠ [] := by
    unfold make_chunks
    by_cases hcd : cd > 0
    · rw [if_pos hcd]
      unfold split_audio
      intro hemp
      have hlen := congrArg List.length hemp
      rw [List.length_insertionSort, List.length_map, List.length_nil] at hlen
      rcases hseg with hle | hfil
      · linarith
      · exact hfil (List.length_eq_zero.mp hlen)
    · rw [if_neg hcd]
      simp
  have h1 : 0 < (make_chunks af cd sT listing).length := List.length_pos.mpr hcn
  refine ⟨hcn, ?_, ?_⟩
  · rw [transcribe_ok_eq inp cd rT sT listing engine clock af nm h]
    simp only [List.length_append, List.length_map, List.length_range,
      List.length_singleton]
    omega
  · rw [transcribe_ok_eq inp cd rT sT listing engine clock af nm h]
    obtain ⟨c, cs, hc⟩ : ∃ c cs, make_chunks af cd sT listing = c :: cs := by
      cases hmc : make_chunks af cd sT listing with
      | nil => exact absurd hmc hcn
      | cons c cs => exact ⟨c, cs, rfl⟩
    rw [hc]
    simp only [List.length_cons, List.range_succ_eq_map, List.map_cons, List.cons_append,
      List.head?_cons, Option.map_some]
    rfl

/-- Counterexample to C6 as stated: the code never checks the splitting
tool's outcome, so a run whose normalization succeeded but whose tool
produced no files has an empty chunk list, yields no chunk-processing event,
and still ends in the terminal success event. -/
theorem claim6_counterexample :
    normalize_input (.filePath "a.mp3") "r" = .ok ("a.mp3", "a") ∧
    make_chunks "a.mp3" 10 "s" [] = [] ∧
    (transcribe (.filePath "a.mp3") 10 "r" "s" [] (fun _ => []) (fun _ => 0)).events =
      [⟨"✅ Done in 0:00:00", "", some "transcriptions/a.txt"⟩] :=
  ⟨rfl, rfl, rfl⟩

/-- Witness for C6 (amended) at an unsegmented run. -/
theorem claim6_witness :
    (normalize_input (.filePath "c.mp3") "r" = .ok ("c.mp3", "c") ∧
     ((0 : ℚ) ≤ 0 ∨ ([] : List String).filter (fun f => endswith f ".wav") ≠ [])) ∧
    (make_chunks "c.mp3" 0 "s" [] ≠ [] ∧
     2 ≤ (transcribe (.filePath "c.mp3") 0 "r" "s" [] (fun _ => []) (fun _ => 0)).events.length ∧
     ((transcribe (.filePath "c.mp3") 0 "r" "s" [] (fun _ => []) (fun _ => 0)).events.head?).map
       (fun e => e.artifact) = some none) :=
  ⟨⟨rfl, Or.inl (by norm_num)⟩,
   claim6 (.filePath "c.mp3") 0 "r" "s" [] (fun _ => []) (fun _ => 0) "c.mp3" "c"
     rfl (Or.inl (by norm_num))⟩

/-- Below one day, the code's `format_time` agrees with the spec's unpadded
floor-second `H:MM:SS` format. -/
theorem format_time_eq_floor_hms (q : ℚ) (h0 : 0 ≤ q) (h1 : q < 86400) :
    format_time q = floor_hms q := by
  have hfl0 : (0 : ℤ) ≤ ⌊q⌋ := Int.floor_nonneg.mpr h0
  have hfl1 : ⌊q⌋ < 86400 := by
    have h2 : (⌊q⌋ : ℚ) < 86400 := lt_of_le_of_lt (Int.floor_le q) h1
    exact_mod_cast h2
  unfold format_time pyTrunc timedeltaRepr floor_hms
  rw [if_pos h0]
  rw [Int.fdiv_eq_ediv _ (by norm_num), Int.ediv_eq_zero_of_lt hfl0 hfl1,
    Int.fmod_eq_emod _ (by norm_num), Int.emod_eq_of_lt hfl0 hfl1]
  simp

/-- Claim C9 (amended): `format_time` maps 0 to `"0:00:00"` and 3661 to
`"1:01:01"`, and a segment whose timestamps are below one day is formatted
as the display line `"[H:MM:SS - H:MM:SS]: text"` with floor-second times. -/
theorem claim9 (seg : Segment) (h0 : 0 ≤ seg.start) (h1 : seg.start < 86400)
    (h2 : 0 ≤ seg.stop) (h3 : seg.stop < 86400) :
    format_time 0 = "0:00:00" ∧ format_time 3661 = "1:01:01" ∧
    seg_line seg =
      "[" ++ floor_hms seg.start ++ " - " ++ floor_hms seg.stop ++ "]: " ++
        py_strip seg.text := by
  refine ⟨by decide, by decide, ?_⟩
  unfold seg_line
  rw [format_time_eq_floor_hms seg.start h0 h1, format_time_eq_floor_hms seg.stop h2 h3]

/-- Counterexample to C9 as stated: at 86400 seconds Python's `timedelta`
string carries a day part, so the line is not of the `H:MM:SS` shape the
spec describes. -/
theorem claim9_counterexample :
    seg_line ⟨86400, 86400, "hi"⟩ = "[1 day, 0:00:00 - 1 day, 0:00:00]: hi" ∧
    floor_hms 86400 = "24:00:00" ∧
    seg_line ⟨86400, 86400, "hi"⟩ ≠
      "[" ++ floor_hms 86400 ++ " - " ++ floor_hms 86400 ++ "]: " ++ py_strip "hi" := by
  refine ⟨by decide, by decide, by decide⟩

/-- Witness for C9 (amended) at the segment `[0 s, 3661 s]` with text `" hi "`. -/
theorem claim9_witness :
    ((0 : ℚ) ≤ 0 ∧ (0 : ℚ) < 86400 ∧ (0 : ℚ) ≤ 3661 ∧ (3661 : ℚ) < 86400) ∧
    (format_time 0 = "0:00:00" ∧ format_time 3661 = "1:01:01" ∧
     seg_line ⟨0, 3661, " hi "⟩ =
       "[" ++ floor_hms 0 ++ " - " ++ floor_hms 3661 ++ "]: " ++ py_strip " hi ") :=
  ⟨⟨by norm_num, by norm_num, by norm_num, by norm_num⟩,
   claim9 ⟨0, 3661, " hi "⟩ (by norm_num) (by norm_num) (by norm_num) (by norm_num)⟩
